import Mathlib

/-!
# The public-link share widget (`src/gui/sharelinkwidget.cpp`)

A shallow embedding of `OCC::ShareLinkWidget`.  The widget object becomes a
record `ShareLinkWidget` holding

* the data members the handlers read and write (`_manager`, `_sharePath`,
  `_selectedShareId`, `_newShareOverrideSelectionId`, `_passwordRequired`, ...);
* the properties of the child widgets that the handlers read back or that gate
  a user intent: the rows and the selection of the `linkShares` table, the
  texts of the two line edits, the check state of the password check box, the
  enabled flags, the error label and the two progress indicators owned by the
  creation and password handlers;
* `calls`, the chronological log of the requests the widget hands to the share
  manager (`fetchShares`, `createLinkShare`) and to share objects
  (`setPassword`, `setName`).

Every slot is a function from widget to widget.  Qt delivers the signals used
here synchronously on the GUI thread, so a signal emission inside a slot is a
nested function call (`selectRow` and `clearSelection` call
`slotShareSelectionChanged` when they change the selection, `setText` on the
password line edit calls `slotPasswordChanged` when it changes the text).

Left out: the expiry-date and permission widgets (calendar, `checkBox_expire`,
the three radio buttons, `_pi_date`, `_pi_editing`) with their handlers, the
context menu, focus changes and header layout.  The handlers embedded below
only write to them; none of their reads depends on them.
-/

namespace OCC

/-- Qt `tr`: with no translation catalogue installed the source text is used. -/
def tr (s : String) : String := s

/-- The values of `Share::ShareType` (declared in sharemanager.h). -/
inductive ShareType where
  | TypeUser
  | TypeGroup
  | TypeLink
  | TypeRemote
  deriving DecidableEq, Repr

/-- A share object reached through a `QSharedPointer`: `ptr` is the address
that `data()` returns, the other fields are what the getters `getShareType`,
`getId`, `getToken`, `getName` and `isPasswordSet` return. -/
structure Share where
  ptr : Nat
  shareType : ShareType
  id : String
  token : String
  name : String
  passwordSet : Bool
  deriving DecidableEq, Repr

/-- One row of the `linkShares` table: the name item of column 0 with its text,
its `Qt::ItemIsEditable` flag and the share stored under `Qt::UserRole`. -/
structure Row where
  text : String
  editable : Bool
  share : Share
  deriving DecidableEq, Repr

/-- Requests leaving the widget. -/
inductive Call where
  | fetchShares (path : String)
  | createLinkShare (path : String) (name : String) (password : String)
  | setPassword (sharePtr : Nat) (shareId : String) (password : String)
  | setName (sharePtr : Nat) (shareId : String) (name : String)
  deriving DecidableEq, Repr

/-- The capability getters of the account that the widget consults
(`capabilities.h`). -/
structure Capabilities where
  sharePublicLink : Bool
  sharePublicLinkMultiple : Bool
  sharePublicLinkEnforcePassword : Bool
  sharePublicLinkEnforceExpireDate : Bool
  deriving DecidableEq, Repr

/-- State of a `ShareLinkWidget`. -/
structure ShareLinkWidget where
  _sharePath : String
  _isFile : Bool
  /-- Whether `_manager` is non-null. -/
  _manager : Bool
  _passwordRequired : Bool
  _expiryRequired : Bool
  _namesSupported : Bool
  _selectedShareId : String
  _newShareOverrideSelectionId : String
  nameLineEdit_text : String
  nameLineEdit_enabled : Bool
  createShareButton_enabled : Bool
  createShareButton_text : String
  linkShares_rows : List Row
  /-- The selected row of the table, if any. -/
  linkShares_selected : Option Nat
  errorLabel_text : String
  errorLabel_visible : Bool
  shareProperties_enabled : Bool
  checkBox_password_checked : Bool
  checkBox_password_enabled : Bool
  checkBox_password_text : String
  lineEdit_password_text : String
  lineEdit_password_enabled : Bool
  lineEdit_password_placeholderText : String
  pushButton_setPassword_enabled : Bool
  /-- Whether `_pi_create` is animating. -/
  pi_create : Bool
  /-- Whether `_pi_password` is animating. -/
  pi_password : Bool
  calls : List Call
  deriving DecidableEq, Repr

/-- Source: `ShareLinkWidget::displayError`. -/
def displayError (w : ShareLinkWidget) (errMsg : String) : ShareLinkWidget :=
  { w with errorLabel_text := errMsg, errorLabel_visible := true }

/-- Source: `ShareLinkWidget::selectedShare`: the share stored in the first selected
item, or null when no item is selected. -/
def selectedShare (w : ShareLinkWidget) : Option Share :=
  match w.linkShares_selected with
  | none => none
  | some row => (w.linkShares_rows[row]?).map Row.share

/-- Source: `ShareLinkWidget::slotPasswordChanged`. -/
def slotPasswordChanged (w : ShareLinkWidget) (newText : String) : ShareLinkWidget :=
  { w with pushButton_setPassword_enabled := decide (newText.length > 0) }

/-- Source: `_ui->lineEdit_password->setText(text)`: `textChanged` is emitted, and
`slotPasswordChanged` runs, only when the text changes. -/
def lineEdit_password_setText (w : ShareLinkWidget) (text : String) : ShareLinkWidget :=
  if w.lineEdit_password_text = text then w
  else slotPasswordChanged { w with lineEdit_password_text := text } text

/-- Source: `ShareLinkWidget::slotShareSelectionChanged`. -/
def slotShareSelectionChanged (w : ShareLinkWidget) : ShareLinkWidget :=
  let w := { w with pi_create := false, pi_password := false, errorLabel_visible := false }
  match selectedShare w with
  | none =>
    { w with
      _selectedShareId := ""
      shareProperties_enabled := false
      checkBox_password_checked := false }
  | some share =>
    let selectionUnchanged := decide (w._selectedShareId = share.id)
    let w := { w with
      _selectedShareId := share.id
      shareProperties_enabled := true
      checkBox_password_enabled := !w._passwordRequired
      checkBox_password_text := tr "P&assword protect" }
    if !selectionUnchanged then
      let w :=
        if share.passwordSet then
          { w with
            checkBox_password_checked := true
            lineEdit_password_placeholderText := "********"
            lineEdit_password_enabled := true }
        else
          { w with
            checkBox_password_checked := false
            lineEdit_password_placeholderText := ""
            lineEdit_password_enabled := false }
      let w := lineEdit_password_setText w ""
      { w with pushButton_setPassword_enabled := false }
    else w

/-- Source: `table->selectRow(row)`.  The table selects whole rows, one at a
time: the row becomes the selection, and when that changes the selection,
`itemSelectionChanged` runs `slotShareSelectionChanged`. -/
def selectRow (w : ShareLinkWidget) (row : Nat) : ShareLinkWidget :=
  if row < w.linkShares_rows.length then
    if w.linkShares_selected = some row then w
    else slotShareSelectionChanged { w with linkShares_selected := some row }
  else w

/-- Source: `_ui->linkShares->clearSelection()`, with the same notification. -/
def clearSelection (w : ShareLinkWidget) : ShareLinkWidget :=
  if w.linkShares_selected = none then w
  else slotShareSelectionChanged { w with linkShares_selected := none }

/-- Source: `ShareLinkWidget::shareName`. -/
def shareName (w : ShareLinkWidget) (share : Share) : String :=
  let name := share.name
  if name ≠ "" then name
  else if !w._namesSupported then tr "Public link"
  else share.token

/-- Source: `ShareLinkWidget::getShares`. -/
def getShares (w : ShareLinkWidget) : ShareLinkWidget :=
  if w._manager then { w with calls := w.calls ++ [Call.fetchShares w._sharePath] }
  else w

/-- The part of `slotSharesFetched` that wipes the table; the selection signal
is disconnected meanwhile, so `slotShareSelectionChanged` does not run. -/
def wipeTable (w : ShareLinkWidget) : ShareLinkWidget :=
  { w with linkShares_rows := [], linkShares_selected := none }

/-- The table row `slotSharesFetched` builds for a link share. -/
def buildRow (w : ShareLinkWidget) (share : Share) : Row :=
  { text := shareName w share, editable := w._namesSupported, share := share }

/-- One iteration of the `foreach` loop of `slotSharesFetched`.  The item is
complete before `setItem` puts it into the table, and `slotNameEdited` does
nothing on such an item (`slotNameEdited_buildRow`), so the `itemChanged`
notification of `setItem` is not spelled out. -/
def fetchedShare (reselectShareId : String) (w : ShareLinkWidget) (share : Share) :
    ShareLinkWidget :=
  if share.shareType ≠ ShareType.TypeLink then w
  else
    let row := w.linkShares_rows.length
    let w := { w with linkShares_rows := w.linkShares_rows ++ [buildRow w share] }
    if reselectShareId = share.id then selectRow w row else w

/-- The block of `slotSharesFetched` after the loop that runs when nothing is
selected: select the first row, or note the deselection explicitly. -/
def selectDefault (w : ShareLinkWidget) : ShareLinkWidget :=
  if (selectedShare w).isNone then
    if w.linkShares_rows.length ≠ 0 then selectRow w 0
    else slotShareSelectionChanged w
  else w

/-- The last statement of `slotSharesFetched`: without named links, creating is
possible only while there is no link share. -/
def updateCreateButton (w : ShareLinkWidget) : ShareLinkWidget :=
  if !w._namesSupported then
    { w with createShareButton_enabled := decide (w.linkShares_rows.length = 0) }
  else w

/-- The id `slotSharesFetched` tries to select again. -/
def reselectTarget (w : ShareLinkWidget) : String :=
  if w._newShareOverrideSelectionId ≠ "" then w._newShareOverrideSelectionId
  else w._selectedShareId

/-- Source: `ShareLinkWidget::slotSharesFetched`. -/
def slotSharesFetched (w : ShareLinkWidget) (shares : List Share) : ShareLinkWidget :=
  let reselectShareId := reselectTarget w
  let w :=
    if w._newShareOverrideSelectionId ≠ "" then { w with _newShareOverrideSelectionId := "" }
    else w
  let w := wipeTable w
  let w := shares.foldl (fetchedShare reselectShareId) w
  let w := selectDefault w
  updateCreateButton w

/-- Source: `ShareLinkWidget::setPassword`. -/
def setPassword (w : ShareLinkWidget) (password : String) : ShareLinkWidget :=
  match selectedShare w with
  | some current =>
    { w with
      pi_password := true
      errorLabel_visible := false
      checkBox_password_enabled := false
      lineEdit_password_enabled := false
      calls := w.calls ++ [Call.setPassword current.ptr current.id password] }
  | none => w

/-- Source: `ShareLinkWidget::slotPasswordReturnPressed`. -/
def slotPasswordReturnPressed (w : ShareLinkWidget) : ShareLinkWidget :=
  if !w._manager then w
  else if (selectedShare w).isNone then
    if w.lineEdit_password_text = "" then w
    else
      { w with
        pi_create := true
        calls := w.calls ++
          [Call.createLinkShare w._sharePath w.nameLineEdit_text w.lineEdit_password_text] }
  else setPassword w w.lineEdit_password_text

/-- Source: `ShareLinkWidget::slotNameEdited`, called with a name item of the table. -/
def slotNameEdited (w : ShareLinkWidget) (item : Row) : ShareLinkWidget :=
  if !w._namesSupported then w
  else
    let newName := item.text
    let share := item.share
    if newName ≠ share.name ∧ newName ≠ share.token then
      { w with calls := w.calls ++ [Call.setName share.ptr share.id newName] }
    else w

/-- Source: `ShareLinkWidget::slotPasswordSet`; `sender` is the address of the share
object that emitted `passwordSet`. -/
def slotPasswordSet (w : ShareLinkWidget) (sender : Nat) : ShareLinkWidget :=
  match selectedShare w with
  | none => w
  | some share =>
    if sender ≠ share.ptr then w
    else
      let w := { w with pi_password := false, checkBox_password_enabled := true }
      let w := lineEdit_password_setText w ""
      let w :=
        if share.passwordSet then
          { w with lineEdit_password_placeholderText := "********"
                   lineEdit_password_enabled := true }
        else
          { w with lineEdit_password_placeholderText := ""
                   lineEdit_password_enabled := false }
      getShares w

/-- Source: `ShareLinkWidget::slotShareNameEntered`. -/
def slotShareNameEntered (w : ShareLinkWidget) : ShareLinkWidget :=
  if !w._manager then w
  else
    { w with
      pi_create := true
      calls := w.calls ++ [Call.createLinkShare w._sharePath w.nameLineEdit_text ""] }

/-- Source: `ShareLinkWidget::slotDeleteShareFetched`. -/
def slotDeleteShareFetched (w : ShareLinkWidget) : ShareLinkWidget :=
  getShares w

/-- Source: `ShareLinkWidget::slotCreateShareFetched`. -/
def slotCreateShareFetched (w : ShareLinkWidget) (share : Share) : ShareLinkWidget :=
  let w := { w with pi_create := false, pi_password := false, nameLineEdit_text := "" }
  let w := { w with _newShareOverrideSelectionId := share.id }
  getShares w

/-- Source: `ShareLinkWidget::slotCheckBoxPasswordClicked`. -/
def slotCheckBoxPasswordClicked (w : ShareLinkWidget) : ShareLinkWidget :=
  if w.checkBox_password_checked then
    { w with
      lineEdit_password_enabled := true
      pushButton_setPassword_enabled := true
      lineEdit_password_placeholderText := tr "Please Set Password" }
  else
    let w := setPassword w ""
    { w with
      lineEdit_password_placeholderText := ""
      pi_password := true
      lineEdit_password_enabled := false
      pushButton_setPassword_enabled := false }

/-- Source: `ShareLinkWidget::slotCreateShareRequiresPassword`. -/
def slotCreateShareRequiresPassword (w : ShareLinkWidget) (message : String) :
    ShareLinkWidget :=
  let w := clearSelection w
  let w := { w with
    pi_create := false
    pi_password := false
    shareProperties_enabled := true
    checkBox_password_checked := true
    checkBox_password_enabled := false
    checkBox_password_text := tr "Public sh&aring requires a password" }
  let w :=
    if message ≠ "" then { w with errorLabel_text := message, errorLabel_visible := true }
    else w
  let w := { w with _passwordRequired := true }
  slotCheckBoxPasswordClicked w

/-- Source: `ShareLinkWidget::slotServerError`; the code only goes to the log. -/
def slotServerError (w : ShareLinkWidget) (_code : Int) (message : String) : ShareLinkWidget :=
  let w := { w with pi_create := false, pi_password := false }
  displayError w message

/-- Source: `ShareLinkWidget::slotPasswordSetError`. -/
def slotPasswordSetError (w : ShareLinkWidget) (code : Int) (message : String) :
    ShareLinkWidget :=
  let w := slotServerError w code message
  { w with checkBox_password_enabled := !w._passwordRequired, lineEdit_password_enabled := true }

/-- The question `confirmAndDeleteShare` puts in its message box: the
translated template with `%1` replaced by the share's display name. -/
def confirmAndDeleteShare_text (w : ShareLinkWidget) (share : Share) : String :=
  tr "<p>Do you really want to delete the public link share <i>" ++ shareName w share ++
    tr "</i>?</p><p>Note: This action cannot be undone.</p>"

/-- Widget state right after `_ui->setupUi(this)` and the member initialisers
of the constructor.  The form file sharelinkwidget.ui is not among the sources;
the child widgets start with Qt's defaults (enabled, unchecked, empty texts, an
empty table), and the error label is hidden by the constructor before it is
first used. -/
def setupUi (sharePath : String) : ShareLinkWidget :=
  { _sharePath := sharePath
    _isFile := false
    _manager := false
    _passwordRequired := false
    _expiryRequired := false
    _namesSupported := true
    _selectedShareId := ""
    _newShareOverrideSelectionId := ""
    nameLineEdit_text := ""
    nameLineEdit_enabled := true
    createShareButton_enabled := true
    createShareButton_text := ""
    linkShares_rows := []
    linkShares_selected := none
    errorLabel_text := ""
    errorLabel_visible := true
    shareProperties_enabled := true
    checkBox_password_checked := false
    checkBox_password_enabled := true
    checkBox_password_text := ""
    lineEdit_password_text := ""
    lineEdit_password_enabled := true
    lineEdit_password_placeholderText := ""
    pushButton_setPassword_enabled := true
    pi_create := false
    pi_password := false
    calls := [] }

/-- The constructor `ShareLinkWidget::ShareLinkWidget`, up to the early return
for a file outside every sync folder.  `SharePermissionShare` is the bit of the
`SharePermissions` flags tested by the constructor; the enum is declared in
sharepermissions.h, which is not among the sources, so the bit is a parameter.
`localPathIsFile` is `QFileInfo(localPath).isFile()`.  The result is the widget
and the local `sharingPossible`. -/
def constructHead (SharePermissionShare : Nat) (capabilities : Capabilities)
    (sharePath : String) (localPathIsFile : Bool) (maxSharingPermissions : Nat) :
    ShareLinkWidget × Bool :=
  let w := setupUi sharePath
  let w := { w with _isFile := localPathIsFile }
  let w := { w with nameLineEdit_text := tr "Public link" }
  let w := { w with errorLabel_visible := false }
  let (w, sharingPossible) :=
    if !capabilities.sharePublicLink then
      (displayError w (tr "Link shares have been disabled"), false)
    else if maxSharingPermissions &&& SharePermissionShare = 0 then
      (displayError w
        (tr "The file can not be shared because it was shared without sharing permission."),
        false)
    else (w, true)
  let w :=
    if !sharingPossible then
      { w with nameLineEdit_enabled := false, createShareButton_enabled := false }
    else w
  let w :=
    if !capabilities.sharePublicLinkMultiple then
      { w with
        _namesSupported := false
        createShareButton_text := tr "Create public link share"
        nameLineEdit_text := "" }
    else w
  let w := { w with
    shareProperties_enabled := false
    pushButton_setPassword_enabled := false
    lineEdit_password_enabled := false
    checkBox_password_text := tr "P&assword protect" }
  (w, sharingPossible)

/-- The constructor `ShareLinkWidget::ShareLinkWidget`. -/
def construct (SharePermissionShare : Nat) (capabilities : Capabilities)
    (sharePath : String) (localPathIsFile : Bool) (maxSharingPermissions : Nat) :
    ShareLinkWidget :=
  let (w, sharingPossible) :=
    constructHead SharePermissionShare capabilities sharePath localPathIsFile
      maxSharingPermissions
  if sharePath = "" then w
  else
    let w :=
      if capabilities.sharePublicLinkEnforcePassword then
        { w with checkBox_password_enabled := false, _passwordRequired := true }
      else w
    let w :=
      if capabilities.sharePublicLinkEnforceExpireDate then { w with _expiryRequired := true }
      else w
    if sharingPossible then { w with _manager := true } else w

/-- Source: `ShareLinkWidget::slotExpireSet` and `ShareLinkWidget::slotPermissionsSet`
(the two bodies are the same); `sender` is the address of the emitting share. -/
def slotPermissionsSet (w : ShareLinkWidget) (sender : Nat) : ShareLinkWidget :=
  if (selectedShare w).map Share.ptr = some sender then slotShareSelectionChanged w else w

/-- The user clicks the password check box: Qt toggles the check state and
emits `clicked`, which runs `slotCheckBoxPasswordClicked`. -/
def clickCheckBoxPassword (w : ShareLinkWidget) : ShareLinkWidget :=
  slotCheckBoxPasswordClicked { w with checkBox_password_checked := !w.checkBox_password_checked }

/-- The user edits the name item of row `row`: the item text changes and
`itemChanged` runs `slotNameEdited` on that item. -/
def editRowName (w : ShareLinkWidget) (row : Nat) (text : String) : ShareLinkWidget :=
  match w.linkShares_rows[row]? with
  | none => w
  | some item =>
    let item := { item with text := text }
    slotNameEdited { w with linkShares_rows := w.linkShares_rows.set row item } item

/-- A share object records the outcome of a password request (in
sharemanager.cpp) before it emits `passwordSet`: the rows holding that object
show the new flag. -/
def sharePasswordStored (w : ShareLinkWidget) (sender : Nat) (isSet : Bool) : ShareLinkWidget :=
  { w with linkShares_rows := w.linkShares_rows.map fun r =>
      if r.share.ptr = sender then { r with share := { r.share with passwordSet := isSet } }
      else r }

/-- What can happen to a constructed widget: calls from the owning dialog,
user input, and signals of the share manager and of share objects. -/
inductive Event where
  | getShares
  | sharesFetched (shares : List Share)
  | rowSelected (row : Nat)
  | selectionCleared
  | nameTyped (text : String)
  | shareNameEntered
  | passwordTyped (text : String)
  | passwordReturnPressed
  | checkBoxPasswordClicked
  | rowNameEdited (row : Nat) (text : String)
  | passwordSet (sender : Nat) (isSet : Bool)
  | passwordSetError (code : Int) (message : String)
  | permissionsSet (sender : Nat)
  | createShareFetched (share : Share)
  | createShareRequiresPassword (message : String)
  | deleteShareFetched
  | serverError (code : Int) (message : String)
  deriving DecidableEq, Repr

/-- The step function of the widget: the handler that runs on an event.  User
input is not filtered by the enabled flags here. -/
def step (w : ShareLinkWidget) : Event → ShareLinkWidget
  | Event.getShares => getShares w
  | Event.sharesFetched shares => slotSharesFetched w shares
  | Event.rowSelected row => selectRow w row
  | Event.selectionCleared => clearSelection w
  | Event.nameTyped text => { w with nameLineEdit_text := text }
  | Event.shareNameEntered => slotShareNameEntered w
  | Event.passwordTyped text => lineEdit_password_setText w text
  | Event.passwordReturnPressed => slotPasswordReturnPressed w
  | Event.checkBoxPasswordClicked => clickCheckBoxPassword w
  | Event.rowNameEdited row text => editRowName w row text
  | Event.passwordSet sender isSet => slotPasswordSet (sharePasswordStored w sender isSet) sender
  | Event.passwordSetError code message => slotPasswordSetError w code message
  | Event.permissionsSet sender => slotPermissionsSet w sender
  | Event.createShareFetched share => slotCreateShareFetched w share
  | Event.createShareRequiresPassword message => slotCreateShareRequiresPassword w message
  | Event.deleteShareFetched => slotDeleteShareFetched w
  | Event.serverError code message => slotServerError w code message

/-- The widget after a sequence of events. -/
def run (w : ShareLinkWidget) (events : List Event) : ShareLinkWidget :=
  events.foldl step w

/-- The link-type entries of a fetched list, in list order. -/
def linkEntries (shares : List Share) : List Share :=
  shares.filter fun share => decide (share.shareType = ShareType.TypeLink)

/-- The widget as the loop of `slotSharesFetched` finds it: the pending
override id taken and cleared, the table wiped. -/
def afterWipe (w : ShareLinkWidget) : ShareLinkWidget :=
  wipeTable
    (if w._newShareOverrideSelectionId ≠ "" then { w with _newShareOverrideSelectionId := "" }
     else w)

/-- The members and properties that handling a selection change never touches:
`_manager`, `_sharePath`, `_namesSupported`, `_passwordRequired`, the pending
override id, the text of the name line edit and the log of requests. -/
def selectionFrame (w : ShareLinkWidget) :
    Bool × String × Bool × Bool × String × String × List Call :=
  (w._manager, w._sharePath, w._namesSupported, w._passwordRequired,
    w._newShareOverrideSelectionId, w.nameLineEdit_text, w.calls)

/-- The selection of the table points at an existing row. -/
def selectionInRange (w : ShareLinkWidget) : Prop :=
  ∀ row, w.linkShares_selected = some row → row < w.linkShares_rows.length

/-- The selected share has id `target` and that id is recorded. -/
def selectedIs (target : String) (w : ShareLinkWidget) : Prop :=
  ∃ share, selectedShare w = some share ∧ share.id = target ∧ w._selectedShareId = target

/-! ## Worked examples -/

/-- A link share without a name whose password is set. -/
def linkShare (ptr : Nat) (id : String) : Share :=
  { ptr := ptr, shareType := ShareType.TypeLink, id := id, token := "tok-" ++ id, name := "",
    passwordSet := true }

/-- A server with public links and several named links per file. -/
def exampleCapabilities : Capabilities :=
  { sharePublicLink := true, sharePublicLinkMultiple := true,
    sharePublicLinkEnforcePassword := false, sharePublicLinkEnforceExpireDate := false }

/-- A freshly constructed widget for a synced folder that may be shared again. -/
def exampleWidget : ShareLinkWidget := construct 16 exampleCapabilities "/Photos" false 31

def shareA : Share := linkShare 1 "A"

def shareB : Share := linkShare 2 "B"

def shareC : Share := linkShare 3 "C"

def shareD : Share := linkShare 4 "D"

def shareZ : Share := linkShare 26 "Z"

/-- A user share, which the widget skips. -/
def userShare : Share :=
  { ptr := 9, shareType := ShareType.TypeUser, id := "U", token := "", name := "",
    passwordSet := false }

/-- The widget showing `[A, B, C]` with `B` selected. -/
def widgetSelectedB : ShareLinkWidget :=
  selectRow (slotSharesFetched exampleWidget [shareA, shareB, shareC]) 1

/-- A created share whose id is the empty string. -/
def shareEmptyId : Share := linkShare 5 ""

/-- The widget showing `[A, B, C]` with `B` selected while the created share
`Z` waits as the pending override. -/
def widgetSelectedBPendingZ : ShareLinkWidget :=
  slotCreateShareFetched widgetSelectedB shareZ

/-- The selected share id is empty or is the id of a share shown in the table. -/
def selectedIdValid (w : ShareLinkWidget) : Prop :=
  w._selectedShareId = "" ∨ ∃ row ∈ w.linkShares_rows, row.share.id = w._selectedShareId

/-- The ids shown in the table together with the selected share id. -/
def idView (w : ShareLinkWidget) : List String × String :=
  (w.linkShares_rows.map fun row => row.share.id, w._selectedShareId)

/-- Whether a request goes to the share manager. -/
def isManagerCall : Call → Bool
  | Call.fetchShares _ => true
  | Call.createLinkShare _ _ _ => true
  | Call.setPassword _ _ _ => false
  | Call.setName _ _ _ => false

/-- Whether there is a share manager, and the requests sent to it so far. -/
def managerView (w : ShareLinkWidget) : Bool × List Call :=
  (w._manager, w.calls.filter isManagerCall)

/-- A server that enforces passwords on public links. -/
def enforcingCapabilities : Capabilities :=
  { sharePublicLink := true, sharePublicLinkMultiple := true,
    sharePublicLinkEnforcePassword := true, sharePublicLinkEnforceExpireDate := false }

/-- A widget on the enforcing server showing the password-protected share `A`,
which the fetch selected. -/
def enforcingWidget : ShareLinkWidget :=
  slotSharesFetched (construct 16 enforcingCapabilities "/Photos" false 31) [shareA]

/-- The enforcing widget after the user typed a new password, submitted it, and
share `A` reported that the password was set. -/
def enforcingWidgetPasswordSet : ShareLinkWidget :=
  step (slotPasswordReturnPressed (lineEdit_password_setText enforcingWidget "secret"))
    (Event.passwordSet 1 true)

/-- The widget for a server on which public links are switched off. -/
def disabledWidget : ShareLinkWidget :=
  construct 16
    { sharePublicLink := false, sharePublicLinkMultiple := true,
      sharePublicLinkEnforcePassword := false, sharePublicLinkEnforceExpireDate := false }
    "/Photos" false 31

/-- The widget of `widgetSelectedB` right after a create request: the create
indicator is animating. -/
def widgetCreating : ShareLinkWidget :=
  slotShareNameEntered widgetSelectedB

/-- Two link shares that carry the same id, followed by `C`. -/
def sharesWithRepeatedId : List Share :=
  [linkShare 7 "A", linkShare 8 "A", shareC]


/-! ## Frame properties of `slotShareSelectionChanged` -/

/-- Everything `slotShareSelectionChanged` leaves alone. -/
theorem slotShareSelectionChanged_frame (w : ShareLinkWidget) :
    (slotShareSelectionChanged w).linkShares_rows = w.linkShares_rows ∧
    (slotShareSelectionChanged w).linkShares_selected = w.linkShares_selected ∧
    (slotShareSelectionChanged w)._newShareOverrideSelectionId = w._newShareOverrideSelectionId ∧
    (slotShareSelectionChanged w)._manager = w._manager ∧
    (slotShareSelectionChanged w)._namesSupported = w._namesSupported ∧
    (slotShareSelectionChanged w)._passwordRequired = w._passwordRequired ∧
    (slotShareSelectionChanged w)._sharePath = w._sharePath ∧
    (slotShareSelectionChanged w).nameLineEdit_text = w.nameLineEdit_text ∧
    (slotShareSelectionChanged w).calls = w.calls := by
  unfold slotShareSelectionChanged
  simp only [lineEdit_password_setText, slotPasswordChanged]
  split
  · exact ⟨rfl, rfl, rfl, rfl, rfl, rfl, rfl, rfl, rfl⟩
  · split
    · split <;> split <;> exact ⟨rfl, rfl, rfl, rfl, rfl, rfl, rfl, rfl, rfl⟩
    · exact ⟨rfl, rfl, rfl, rfl, rfl, rfl, rfl, rfl, rfl⟩

@[simp]
theorem slotShareSelectionChanged_rows (w : ShareLinkWidget) :
    (slotShareSelectionChanged w).linkShares_rows = w.linkShares_rows :=
  (slotShareSelectionChanged_frame w).1

@[simp]
theorem slotShareSelectionChanged_selected (w : ShareLinkWidget) :
    (slotShareSelectionChanged w).linkShares_selected = w.linkShares_selected :=
  (slotShareSelectionChanged_frame w).2.1

@[simp]
theorem slotShareSelectionChanged_override (w : ShareLinkWidget) :
    (slotShareSelectionChanged w)._newShareOverrideSelectionId =
      w._newShareOverrideSelectionId :=
  (slotShareSelectionChanged_frame w).2.2.1

@[simp]
theorem slotShareSelectionChanged_manager (w : ShareLinkWidget) :
    (slotShareSelectionChanged w)._manager = w._manager :=
  (slotShareSelectionChanged_frame w).2.2.2.1

@[simp]
theorem slotShareSelectionChanged_namesSupported (w : ShareLinkWidget) :
    (slotShareSelectionChanged w)._namesSupported = w._namesSupported :=
  (slotShareSelectionChanged_frame w).2.2.2.2.1

@[simp]
theorem slotShareSelectionChanged_passwordRequired (w : ShareLinkWidget) :
    (slotShareSelectionChanged w)._passwordRequired = w._passwordRequired :=
  (slotShareSelectionChanged_frame w).2.2.2.2.2.1

@[simp]
theorem slotShareSelectionChanged_sharePath (w : ShareLinkWidget) :
    (slotShareSelectionChanged w)._sharePath = w._sharePath :=
  (slotShareSelectionChanged_frame w).2.2.2.2.2.2.1

@[simp]
theorem slotShareSelectionChanged_nameLineEdit (w : ShareLinkWidget) :
    (slotShareSelectionChanged w).nameLineEdit_text = w.nameLineEdit_text :=
  (slotShareSelectionChanged_frame w).2.2.2.2.2.2.2.1

@[simp]
theorem slotShareSelectionChanged_calls (w : ShareLinkWidget) :
    (slotShareSelectionChanged w).calls = w.calls :=
  (slotShareSelectionChanged_frame w).2.2.2.2.2.2.2.2

@[simp]
theorem selectedShare_slotShareSelectionChanged (w : ShareLinkWidget) :
    selectedShare (slotShareSelectionChanged w) = selectedShare w := by
  simp [selectedShare]

/-- The id `slotShareSelectionChanged` records is the id of the selected share,
or the empty string when nothing is selected. -/
theorem slotShareSelectionChanged_selectedShareId (w : ShareLinkWidget) :
    (slotShareSelectionChanged w)._selectedShareId =
      match selectedShare w with
      | none => ""
      | some share => share.id := by
  have hs : selectedShare { w with
      pi_create := false, pi_password := false, errorLabel_visible := false } =
      selectedShare w := rfl
  unfold slotShareSelectionChanged
  simp only [lineEdit_password_setText, slotPasswordChanged, hs]
  cases selectedShare w with
  | none => rfl
  | some share =>
    simp only []
    split
    · split <;> split <;> rfl
    · rfl

/-! ## The loop of `slotSharesFetched` -/

/-- On a freshly built row `slotNameEdited` changes nothing: the text of the
row is the name or the token of its share. -/
theorem slotNameEdited_buildRow (w : ShareLinkWidget) (share : Share) :
    slotNameEdited w (buildRow w share) = w := by
  unfold slotNameEdited buildRow shareName
  cases hn : w._namesSupported
  · rfl
  · by_cases hname : share.name = "" <;> simp [hname]

theorem buildRow_congr (w v : ShareLinkWidget) (h : v._namesSupported = w._namesSupported)
    (share : Share) : buildRow v share = buildRow w share := by
  simp [buildRow, shareName, h]

theorem fetchedShare_namesSupported (target : String) (w : ShareLinkWidget) (share : Share) :
    (fetchedShare target w share)._namesSupported = w._namesSupported := by
  unfold fetchedShare selectRow
  split
  · rfl
  · simp only []
    split
    · split
      · split
        · rfl
        · simp
      · rfl
    · rfl

theorem fetchedShare_rows (target : String) (w : ShareLinkWidget) (share : Share) :
    (fetchedShare target w share).linkShares_rows =
      if share.shareType = ShareType.TypeLink then w.linkShares_rows ++ [buildRow w share]
      else w.linkShares_rows := by
  unfold fetchedShare selectRow
  by_cases hl : share.shareType = ShareType.TypeLink
  · simp only [hl, ne_eq, not_true_eq_false, if_false, if_true]
    split
    · split
      · split
        · rfl
        · simp
      · rfl
    · rfl
  · simp [hl]


theorem foldl_fetchedShare_namesSupported (target : String) (shares : List Share) :
    ∀ w : ShareLinkWidget,
      (shares.foldl (fetchedShare target) w)._namesSupported = w._namesSupported := by
  induction shares with
  | nil => intro w; rfl
  | cons share rest ih =>
    intro w
    rw [List.foldl_cons, ih, fetchedShare_namesSupported]

/-- The rows after the loop: one row per link-type entry, in list order,
appended to the rows the loop started with. -/
theorem foldl_fetchedShare_rows (target : String) (shares : List Share) :
    ∀ w : ShareLinkWidget,
      (shares.foldl (fetchedShare target) w).linkShares_rows =
        w.linkShares_rows ++ (linkEntries shares).map (buildRow w) := by
  induction shares with
  | nil => intro w; simp [linkEntries]
  | cons share rest ih =>
    intro w
    rw [List.foldl_cons, ih, fetchedShare_rows]
    have hb : buildRow (fetchedShare target w share) = buildRow w := by
      funext s
      exact buildRow_congr _ _ (fetchedShare_namesSupported target w share) s
    by_cases hl : share.shareType = ShareType.TypeLink
    · simp [hl, hb, linkEntries]
    · simp [hl, hb, linkEntries]

/-- When no link-type entry carries the id looked for, the loop only appends
rows. -/
theorem foldl_fetchedShare_of_no_match (target : String) (shares : List Share)
    (hno : ∀ share ∈ shares, share.shareType = ShareType.TypeLink → share.id ≠ target) :
    ∀ w : ShareLinkWidget,
      shares.foldl (fetchedShare target) w =
        { w with linkShares_rows := w.linkShares_rows ++ (linkEntries shares).map (buildRow w) } := by
  induction shares with
  | nil => intro w; simp [linkEntries]
  | cons share rest ih =>
    intro w
    have hrest : ∀ s ∈ rest, s.shareType = ShareType.TypeLink → s.id ≠ target :=
      fun s hs => hno s (List.mem_cons_of_mem _ hs)
    rw [List.foldl_cons, ih hrest]
    by_cases hl : share.shareType = ShareType.TypeLink
    · have hid : ¬ target = share.id := fun h => hno share (List.mem_cons_self _ _) hl h.symm
      have hstep : fetchedShare target w share =
          { w with linkShares_rows := w.linkShares_rows ++ [buildRow w share] } := by
        simp [fetchedShare, hl, hid]
      rw [hstep]
      have hb : buildRow { w with linkShares_rows := w.linkShares_rows ++ [buildRow w share] } =
          buildRow w := by
        funext s; exact buildRow_congr _ _ rfl s
      simp [hb, linkEntries, hl]
    · have hstep : fetchedShare target w share = w := by simp [fetchedShare, hl]
      rw [hstep]
      simp [linkEntries, hl]

theorem selectedShare_append_of_inRange (w : ShareLinkWidget) (extra : List Row)
    (hin : selectionInRange w) :
    selectedShare { w with linkShares_rows := w.linkShares_rows ++ extra } = selectedShare w := by
  unfold selectedShare
  cases hsel : w.linkShares_selected with
  | none => simp [hsel]
  | some row =>
    have hlt := hin row hsel
    simp [hsel, List.getElem?_append_left hlt]

/-- One iteration keeps the selection inside the table, and keeps a selection
that already has the id looked for. -/
theorem fetchedShare_invariant (target : String) (w : ShareLinkWidget) (share : Share)
    (hin : selectionInRange w) :
    selectionInRange (fetchedShare target w share) ∧
    (selectedIs target w → selectedIs target (fetchedShare target w share)) ∧
    (share.shareType = ShareType.TypeLink → share.id = target →
      selectedIs target (fetchedShare target w share)) := by
  by_cases hl : share.shareType = ShareType.TypeLink
  swap
  · have hstep : fetchedShare target w share = w := by simp [fetchedShare, hl]
    rw [hstep]
    exact ⟨hin, id, fun h => absurd h hl⟩
  by_cases hid : target = share.id
  swap
  · have hstep : fetchedShare target w share =
        { w with linkShares_rows := w.linkShares_rows ++ [buildRow w share] } := by
      simp [fetchedShare, hl, hid]
    rw [hstep]
    refine ⟨?_, ?_, fun _ h => absurd h.symm hid⟩
    · intro row hrow
      have := hin row hrow
      simp only [List.length_append, List.length_singleton]
      omega
    · rintro ⟨s, hs, hsid, hrec⟩
      exact ⟨s, by rw [selectedShare_append_of_inRange w _ hin]; exact hs, hsid, hrec⟩
  · have hne : w.linkShares_selected ≠ some w.linkShares_rows.length := by
      intro h
      exact absurd (hin _ h) (Nat.lt_irrefl _)
    have hstep : fetchedShare target w share =
        slotShareSelectionChanged { w with
          linkShares_rows := w.linkShares_rows ++ [buildRow w share]
          linkShares_selected := some w.linkShares_rows.length } := by
      simp [fetchedShare, selectRow, hl, hid, hne]
    have hsel : selectedShare { w with
          linkShares_rows := w.linkShares_rows ++ [buildRow w share]
          linkShares_selected := some w.linkShares_rows.length } = some share := by
      simp [selectedShare, buildRow]
    have hres : selectedIs target (fetchedShare target w share) := by
      refine ⟨share, ?_, hid.symm, ?_⟩
      · rw [hstep, selectedShare_slotShareSelectionChanged, hsel]
      · rw [hstep, slotShareSelectionChanged_selectedShareId, hsel]
        exact hid.symm
    refine ⟨?_, fun _ => hres, fun _ _ => hres⟩
    intro row hrow
    rw [hstep] at hrow ⊢
    simp only [slotShareSelectionChanged_selected, slotShareSelectionChanged_rows] at hrow ⊢
    simp only [Option.some.injEq] at hrow
    simp only [List.length_append, List.length_singleton]
    omega

theorem foldl_fetchedShare_invariant (target : String) (shares : List Share) :
    ∀ w : ShareLinkWidget, selectionInRange w →
      selectionInRange (shares.foldl (fetchedShare target) w) ∧
      (selectedIs target w → selectedIs target (shares.foldl (fetchedShare target) w)) := by
  induction shares with
  | nil => intro w hin; exact ⟨hin, id⟩
  | cons share rest ih =>
    intro w hin
    obtain ⟨hin1, hkeep, _⟩ := fetchedShare_invariant target w share hin
    obtain ⟨hin2, hkeep2⟩ := ih _ hin1
    exact ⟨hin2, fun h => hkeep2 (hkeep h)⟩

/-- When some link-type entry carries the id looked for, the loop ends with a
share of that id selected and recorded. -/
theorem foldl_fetchedShare_of_match (target : String) (shares : List Share)
    (hex : ∃ share ∈ shares, share.shareType = ShareType.TypeLink ∧ share.id = target) :
    ∀ w : ShareLinkWidget, selectionInRange w →
      selectedIs target (shares.foldl (fetchedShare target) w) := by
  induction shares with
  | nil => obtain ⟨s, hs, _⟩ := hex; cases hs
  | cons share rest ih =>
    intro w hin
    obtain ⟨hin1, _, hnew⟩ := fetchedShare_invariant target w share hin
    rw [List.foldl_cons]
    by_cases hhere : share.shareType = ShareType.TypeLink ∧ share.id = target
    · exact (foldl_fetchedShare_invariant target rest _ hin1).2 (hnew hhere.1 hhere.2)
    · apply ih _ _ hin1
      obtain ⟨s, hs, hs2⟩ := hex
      rcases List.mem_cons.mp hs with h | h
      · subst h; exact absurd hs2 hhere
      · exact ⟨s, h, hs2⟩


/-! ## `slotSharesFetched` as a whole -/

theorem slotSharesFetched_eq (w : ShareLinkWidget) (shares : List Share) :
    slotSharesFetched w shares =
      updateCreateButton (selectDefault
        (shares.foldl (fetchedShare (reselectTarget w)) (afterWipe w))) := rfl

theorem selectionInRange_afterWipe (w : ShareLinkWidget) : selectionInRange (afterWipe w) := by
  intro row hrow
  unfold afterWipe wipeTable at hrow
  split at hrow <;> cases hrow

theorem afterWipe_rows (w : ShareLinkWidget) : (afterWipe w).linkShares_rows = [] := by
  unfold afterWipe wipeTable; split <;> rfl

theorem afterWipe_selected (w : ShareLinkWidget) : (afterWipe w).linkShares_selected = none := by
  unfold afterWipe wipeTable; split <;> rfl

theorem afterWipe_selectedShareId (w : ShareLinkWidget) :
    (afterWipe w)._selectedShareId = w._selectedShareId := by
  unfold afterWipe wipeTable; split <;> rfl

theorem afterWipe_namesSupported (w : ShareLinkWidget) :
    (afterWipe w)._namesSupported = w._namesSupported := by
  unfold afterWipe wipeTable; split <;> rfl

theorem afterWipe_override (w : ShareLinkWidget) :
    (afterWipe w)._newShareOverrideSelectionId = "" := by
  unfold afterWipe wipeTable
  split
  · rfl
  · rename_i h
    simpa using h

@[simp]
theorem updateCreateButton_selectedShareId (w : ShareLinkWidget) :
    (updateCreateButton w)._selectedShareId = w._selectedShareId := by
  unfold updateCreateButton; split <;> rfl

@[simp]
theorem updateCreateButton_rows (w : ShareLinkWidget) :
    (updateCreateButton w).linkShares_rows = w.linkShares_rows := by
  unfold updateCreateButton; split <;> rfl

@[simp]
theorem updateCreateButton_selected (w : ShareLinkWidget) :
    (updateCreateButton w).linkShares_selected = w.linkShares_selected := by
  unfold updateCreateButton; split <;> rfl

@[simp]
theorem updateCreateButton_override (w : ShareLinkWidget) :
    (updateCreateButton w)._newShareOverrideSelectionId = w._newShareOverrideSelectionId := by
  unfold updateCreateButton; split <;> rfl

/-- The rows after a fetch are the rows built for the link-type entries. -/
theorem slotSharesFetched_rows (w : ShareLinkWidget) (shares : List Share) :
    (slotSharesFetched w shares).linkShares_rows = (linkEntries shares).map (buildRow w) := by
  rw [slotSharesFetched_eq, updateCreateButton_rows]
  have hloop := foldl_fetchedShare_rows (reselectTarget w) shares (afterWipe w)
  have hb : buildRow (afterWipe w) = buildRow w := by
    funext s; exact buildRow_congr _ _ (afterWipe_namesSupported w) s
  rw [afterWipe_rows, hb, List.nil_append] at hloop
  unfold selectDefault selectRow
  split
  · split
    · split
      · split
        · exact hloop
        · rw [slotShareSelectionChanged_rows]; exact hloop
      · exact hloop
    · rw [slotShareSelectionChanged_rows]; exact hloop
  · exact hloop

/-- A fetch whose list has a link-type entry with the id looked for ends with
that id selected. -/
theorem slotSharesFetched_of_match (w : ShareLinkWidget) (shares : List Share)
    (hex : ∃ share ∈ shares,
      share.shareType = ShareType.TypeLink ∧ share.id = reselectTarget w) :
    (slotSharesFetched w shares)._selectedShareId = reselectTarget w := by
  obtain ⟨s, hs, _, hrec⟩ :=
    foldl_fetchedShare_of_match (reselectTarget w) shares hex (afterWipe w)
      (selectionInRange_afterWipe w)
  rw [slotSharesFetched_eq, updateCreateButton_selectedShareId]
  unfold selectDefault
  rw [hs]
  simpa using hrec

/-- A fetch whose list has no link-type entry with the id looked for selects
the first link-type entry. -/
theorem slotSharesFetched_of_no_match (w : ShareLinkWidget) (shares : List Share)
    (hno : ¬ ∃ share ∈ shares,
      share.shareType = ShareType.TypeLink ∧ share.id = reselectTarget w)
    (first : Share) (hfirst : (linkEntries shares).head? = some first) :
    (slotSharesFetched w shares)._selectedShareId = first.id := by
  have hno2 : ∀ share ∈ shares, share.shareType = ShareType.TypeLink →
      share.id ≠ reselectTarget w := fun s hs hl hid => hno ⟨s, hs, hl, hid⟩
  rw [slotSharesFetched_eq, updateCreateButton_selectedShareId,
    foldl_fetchedShare_of_no_match _ _ hno2, afterWipe_rows, List.nil_append]
  obtain ⟨rest, hrest⟩ : ∃ rest, linkEntries shares = first :: rest := by
    cases hl : linkEntries shares with
    | nil => rw [hl] at hfirst; cases hfirst
    | cons a rest =>
      rw [hl] at hfirst
      simp only [List.head?_cons, Option.some.injEq] at hfirst
      exact ⟨rest, by rw [hfirst]⟩
  rw [hrest]
  have hsel := afterWipe_selected w
  unfold selectDefault selectRow
  simp only [selectedShare, hsel, Option.isNone_none, if_true, List.map_cons, List.length_cons,
    ne_eq, Nat.succ_ne_zero, not_false_eq_true, Nat.zero_lt_succ]
  rw [if_neg (by simp), slotShareSelectionChanged_selectedShareId]
  simp [selectedShare, buildRow]

/-- A fetch whose list has no link-type entry at all notes the deselection
explicitly: `slotShareSelectionChanged` runs on the wiped table. -/
theorem slotSharesFetched_of_no_link (w : ShareLinkWidget) (shares : List Share)
    (hnone : linkEntries shares = []) :
    slotSharesFetched w shares =
      updateCreateButton (slotShareSelectionChanged (afterWipe w)) := by
  have hno2 : ∀ share ∈ shares, share.shareType = ShareType.TypeLink →
      share.id ≠ reselectTarget w := by
    intro s hs hl
    have : s ∈ linkEntries shares := by simp [linkEntries, hs, hl]
    rw [hnone] at this
    cases this
  rw [slotSharesFetched_eq, foldl_fetchedShare_of_no_match _ _ hno2, hnone]
  have hrows := afterWipe_rows w
  have hsel := afterWipe_selected w
  have hsame : ({ afterWipe w with
      linkShares_rows := (afterWipe w).linkShares_rows ++ List.map (buildRow (afterWipe w)) [] } :
      ShareLinkWidget) = afterWipe w := by
    simp
  rw [hsame]
  unfold selectDefault
  simp [selectedShare, hsel, hrows]


/-! ## What selection handling never touches -/

theorem selectionFrame_slotShareSelectionChanged (w : ShareLinkWidget) :
    selectionFrame (slotShareSelectionChanged w) = selectionFrame w := by
  simp [selectionFrame]

theorem selectionFrame_selectRow (w : ShareLinkWidget) (row : Nat) :
    selectionFrame (selectRow w row) = selectionFrame w := by
  unfold selectRow
  split
  · split
    · rfl
    · rw [selectionFrame_slotShareSelectionChanged]; rfl
  · rfl

theorem selectionFrame_clearSelection (w : ShareLinkWidget) :
    selectionFrame (clearSelection w) = selectionFrame w := by
  unfold clearSelection
  split
  · rfl
  · rw [selectionFrame_slotShareSelectionChanged]; rfl

theorem selectionFrame_fetchedShare (target : String) (w : ShareLinkWidget) (share : Share) :
    selectionFrame (fetchedShare target w share) = selectionFrame w := by
  unfold fetchedShare
  split
  · rfl
  · simp only []
    split
    · rw [selectionFrame_selectRow]; rfl
    · rfl

theorem selectionFrame_foldl_fetchedShare (target : String) (shares : List Share) :
    ∀ w : ShareLinkWidget,
      selectionFrame (shares.foldl (fetchedShare target) w) = selectionFrame w := by
  induction shares with
  | nil => intro w; rfl
  | cons share rest ih =>
    intro w
    rw [List.foldl_cons, ih, selectionFrame_fetchedShare]

theorem selectionFrame_selectDefault (w : ShareLinkWidget) :
    selectionFrame (selectDefault w) = selectionFrame w := by
  unfold selectDefault
  split
  · split
    · exact selectionFrame_selectRow w 0
    · exact selectionFrame_slotShareSelectionChanged w
  · rfl

theorem selectionFrame_updateCreateButton (w : ShareLinkWidget) :
    selectionFrame (updateCreateButton w) = selectionFrame w := by
  unfold updateCreateButton
  split <;> rfl

theorem selectionFrame_afterWipe (w : ShareLinkWidget) :
    selectionFrame (afterWipe w) = selectionFrame { w with _newShareOverrideSelectionId := "" } := by
  unfold afterWipe wipeTable
  split
  · rfl
  · rename_i h
    have h2 : w._newShareOverrideSelectionId = "" := by simpa using h
    simp [selectionFrame, h2]

/-- A fetch clears the pending override id and leaves every other member of
the frame alone. -/
theorem selectionFrame_slotSharesFetched (w : ShareLinkWidget) (shares : List Share) :
    selectionFrame (slotSharesFetched w shares) =
      selectionFrame { w with _newShareOverrideSelectionId := "" } := by
  rw [slotSharesFetched_eq, selectionFrame_updateCreateButton, selectionFrame_selectDefault,
    selectionFrame_foldl_fetchedShare, selectionFrame_afterWipe]

theorem slotSharesFetched_override (w : ShareLinkWidget) (shares : List Share) :
    (slotSharesFetched w shares)._newShareOverrideSelectionId = "" :=
  congrArg (fun f => f.2.2.2.2.1) (selectionFrame_slotSharesFetched w shares)

theorem slotSharesFetched_namesSupported (w : ShareLinkWidget) (shares : List Share) :
    (slotSharesFetched w shares)._namesSupported = w._namesSupported :=
  congrArg (fun f => f.2.2.1) (selectionFrame_slotSharesFetched w shares)

theorem slotSharesFetched_manager (w : ShareLinkWidget) (shares : List Share) :
    (slotSharesFetched w shares)._manager = w._manager :=
  congrArg (fun f => f.1) (selectionFrame_slotSharesFetched w shares)

theorem slotSharesFetched_calls (w : ShareLinkWidget) (shares : List Share) :
    (slotSharesFetched w shares).calls = w.calls :=
  congrArg (fun f => f.2.2.2.2.2.2) (selectionFrame_slotSharesFetched w shares)


/-! ## The selected id refers to a row -/

theorem selectedIdValid_of_idView (w v : ShareLinkWidget) (h : idView v = idView w)
    (hw : selectedIdValid w) : selectedIdValid v := by
  have hrows : v.linkShares_rows.map (fun row => row.share.id) =
      w.linkShares_rows.map (fun row => row.share.id) := congrArg Prod.fst h
  have hsel : v._selectedShareId = w._selectedShareId := congrArg Prod.snd h
  rcases hw with h0 | ⟨row, hrow, hid⟩
  · exact Or.inl (hsel.trans h0)
  · right
    have hmem : w._selectedShareId ∈ v.linkShares_rows.map (fun row => row.share.id) := by
      rw [hrows]
      exact List.mem_map.mpr ⟨row, hrow, hid⟩
    obtain ⟨r, hr, hrid⟩ := List.mem_map.mp hmem
    exact ⟨r, hr, hrid.trans hsel.symm⟩

theorem selectedIdValid_slotShareSelectionChanged (w : ShareLinkWidget) :
    selectedIdValid (slotShareSelectionChanged w) := by
  unfold selectedIdValid
  rw [slotShareSelectionChanged_selectedShareId, slotShareSelectionChanged_rows]
  cases hsel : selectedShare w with
  | none => exact Or.inl rfl
  | some share =>
    right
    unfold selectedShare at hsel
    cases hrow : w.linkShares_selected with
    | none => rw [hrow] at hsel; cases hsel
    | some row =>
      rw [hrow] at hsel
      simp only [Option.map_eq_some'] at hsel
      obtain ⟨r, hr, hshare⟩ := hsel
      exact ⟨r, List.getElem?_mem hr, by rw [hshare]⟩

theorem selectedIdValid_slotSharesFetched (w : ShareLinkWidget) (shares : List Share) :
    selectedIdValid (slotSharesFetched w shares) := by
  unfold selectedIdValid
  rw [slotSharesFetched_rows]
  by_cases hex : ∃ share ∈ shares,
      share.shareType = ShareType.TypeLink ∧ share.id = reselectTarget w
  · right
    rw [slotSharesFetched_of_match w shares hex]
    obtain ⟨s, hs, hl, hid⟩ := hex
    refine ⟨buildRow w s, List.mem_map.mpr ⟨s, ?_, rfl⟩, hid⟩
    simp [linkEntries, hs, hl]
  · cases hl : linkEntries shares with
    | nil =>
      left
      rw [slotSharesFetched_of_no_link w shares hl, updateCreateButton_selectedShareId,
        slotShareSelectionChanged_selectedShareId]
      simp [selectedShare, afterWipe_selected]
    | cons first rest =>
      right
      rw [slotSharesFetched_of_no_match w shares hex first (by rw [hl]; rfl)]
      exact ⟨buildRow w first, by simp, rfl⟩

theorem selectedIdValid_selectRow (w : ShareLinkWidget) (row : Nat)
    (hw : selectedIdValid w) : selectedIdValid (selectRow w row) := by
  unfold selectRow
  split
  · split
    · exact hw
    · exact selectedIdValid_slotShareSelectionChanged _
  · exact hw

theorem selectedIdValid_clearSelection (w : ShareLinkWidget)
    (hw : selectedIdValid w) : selectedIdValid (clearSelection w) := by
  unfold clearSelection
  split
  · exact hw
  · exact selectedIdValid_slotShareSelectionChanged _

theorem idView_getShares (w : ShareLinkWidget) : idView (getShares w) = idView w := by
  unfold getShares; split <;> rfl

theorem idView_setPassword (w : ShareLinkWidget) (password : String) :
    idView (setPassword w password) = idView w := by
  unfold setPassword; split <;> rfl

theorem idView_lineEdit_password_setText (w : ShareLinkWidget) (text : String) :
    idView (lineEdit_password_setText w text) = idView w := by
  unfold lineEdit_password_setText; split <;> rfl

theorem idView_slotPasswordReturnPressed (w : ShareLinkWidget) :
    idView (slotPasswordReturnPressed w) = idView w := by
  unfold slotPasswordReturnPressed
  split
  · rfl
  · split
    · split <;> rfl
    · exact idView_setPassword w _

theorem idView_slotCheckBoxPasswordClicked (w : ShareLinkWidget) :
    idView (slotCheckBoxPasswordClicked w) = idView w := by
  unfold slotCheckBoxPasswordClicked
  split
  · rfl
  · exact idView_setPassword w ""

theorem idView_slotNameEdited (w : ShareLinkWidget) (item : Row) :
    idView (slotNameEdited w item) = idView w := by
  unfold slotNameEdited
  split
  · rfl
  · simp only []
    split <;> rfl

theorem idView_editRowName (w : ShareLinkWidget) (row : Nat) (text : String) :
    idView (editRowName w row text) = idView w := by
  unfold editRowName
  cases hitem : w.linkShares_rows[row]? with
  | none => rfl
  | some item =>
    simp only []
    rw [idView_slotNameEdited]
    unfold idView
    simp only [Prod.mk.injEq, and_true, List.map_set]
    apply List.ext_getElem?
    intro i
    by_cases hi : row = i
    · subst hi
      have hlt : row < (w.linkShares_rows.map fun r => r.share.id).length := by
        rw [List.length_map]
        exact (List.getElem?_eq_some.mp hitem).1
      rw [List.getElem?_set_self hlt, List.getElem?_map, hitem]
      rfl
    · rw [List.getElem?_set_ne hi]

theorem idView_sharePasswordStored (w : ShareLinkWidget) (sender : Nat) (isSet : Bool) :
    idView (sharePasswordStored w sender isSet) = idView w := by
  unfold idView sharePasswordStored
  simp only [Prod.mk.injEq, and_true, List.map_map]
  apply List.map_congr_left
  intro r _
  show (if r.share.ptr = sender then _ else r).share.id = r.share.id
  split <;> rfl

theorem idView_slotPasswordSet (w : ShareLinkWidget) (sender : Nat) :
    idView (slotPasswordSet w sender) = idView w := by
  unfold slotPasswordSet
  split
  · rfl
  · split
    · rfl
    · rw [idView_getShares]
      split <;> unfold lineEdit_password_setText <;> split <;> rfl

theorem idView_slotServerError (w : ShareLinkWidget) (code : Int) (message : String) :
    idView (slotServerError w code message) = idView w := rfl

theorem idView_slotPasswordSetError (w : ShareLinkWidget) (code : Int) (message : String) :
    idView (slotPasswordSetError w code message) = idView w := rfl

theorem idView_slotShareNameEntered (w : ShareLinkWidget) :
    idView (slotShareNameEntered w) = idView w := by
  unfold slotShareNameEntered; split <;> rfl

theorem idView_slotCreateShareFetched (w : ShareLinkWidget) (share : Share) :
    idView (slotCreateShareFetched w share) = idView w := by
  unfold slotCreateShareFetched
  rw [idView_getShares]
  rfl

/-- What `slotCreateShareRequiresPassword` does after clearing the selection
leaves the rows and the selected id alone. -/
theorem idView_slotCreateShareRequiresPassword (w : ShareLinkWidget) (message : String) :
    idView (slotCreateShareRequiresPassword w message) = idView (clearSelection w) := by
  unfold slotCreateShareRequiresPassword
  simp only []
  rw [idView_slotCheckBoxPasswordClicked]
  split <;> rfl

theorem selectedIdValid_slotCreateShareRequiresPassword (w : ShareLinkWidget)
    (message : String) (hw : selectedIdValid w) :
    selectedIdValid (slotCreateShareRequiresPassword w message) :=
  selectedIdValid_of_idView _ _ (idView_slotCreateShareRequiresPassword w message)
    (selectedIdValid_clearSelection w hw)

theorem selectedIdValid_step (w : ShareLinkWidget) (event : Event)
    (hw : selectedIdValid w) : selectedIdValid (step w event) := by
  cases event with
  | getShares => exact selectedIdValid_of_idView _ _ (idView_getShares w) hw
  | sharesFetched shares => exact selectedIdValid_slotSharesFetched w shares
  | rowSelected row => exact selectedIdValid_selectRow w row hw
  | selectionCleared => exact selectedIdValid_clearSelection w hw
  | nameTyped text => exact hw
  | shareNameEntered => exact selectedIdValid_of_idView _ _ (idView_slotShareNameEntered w) hw
  | passwordTyped text =>
    exact selectedIdValid_of_idView _ _ (idView_lineEdit_password_setText w text) hw
  | passwordReturnPressed =>
    exact selectedIdValid_of_idView _ _ (idView_slotPasswordReturnPressed w) hw
  | checkBoxPasswordClicked =>
    exact selectedIdValid_of_idView _ _ (idView_slotCheckBoxPasswordClicked _) hw
  | rowNameEdited row text =>
    exact selectedIdValid_of_idView _ _ (idView_editRowName w row text) hw
  | passwordSet sender isSet =>
    exact selectedIdValid_of_idView _ _
      ((idView_slotPasswordSet _ sender).trans (idView_sharePasswordStored w sender isSet)) hw
  | passwordSetError code message => exact hw
  | permissionsSet sender =>
    show selectedIdValid (slotPermissionsSet w sender)
    unfold slotPermissionsSet
    split
    · exact selectedIdValid_slotShareSelectionChanged w
    · exact hw
  | createShareFetched share =>
    exact selectedIdValid_of_idView _ _ (idView_slotCreateShareFetched w share) hw
  | createShareRequiresPassword message =>
    exact selectedIdValid_slotCreateShareRequiresPassword w message hw
  | deleteShareFetched => exact selectedIdValid_of_idView _ _ (idView_getShares w) hw
  | serverError code message => exact hw

theorem construct_selectedShareId (bit : Nat) (capabilities : Capabilities) (sharePath : String)
    (localPathIsFile : Bool) (maxSharingPermissions : Nat) :
    (construct bit capabilities sharePath localPathIsFile maxSharingPermissions)._selectedShareId
      = "" := by
  obtain ⟨c1, c2, c3, c4⟩ := capabilities
  by_cases hbit : maxSharingPermissions &&& bit = 0 <;> by_cases hpath : sharePath = "" <;>
    cases c1 <;> cases c2 <;> cases c3 <;> cases c4 <;>
    simp [construct, constructHead, setupUi, displayError, hbit, hpath]


/-! ## Without a share manager nothing is requested from it -/

theorem managerView_of_selectionFrame (w v : ShareLinkWidget)
    (h : selectionFrame v = selectionFrame w) : managerView v = managerView w := by
  have h1 : v._manager = w._manager := congrArg (fun f => f.1) h
  have h2 : v.calls = w.calls := congrArg (fun f => f.2.2.2.2.2.2) h
  simp [managerView, h1, h2]

theorem managerView_setPassword (w : ShareLinkWidget) (password : String) :
    managerView (setPassword w password) = managerView w := by
  unfold setPassword
  split
  · simp [managerView, List.filter_append, isManagerCall]
  · rfl

theorem managerView_slotCheckBoxPasswordClicked (w : ShareLinkWidget) :
    managerView (slotCheckBoxPasswordClicked w) = managerView w := by
  unfold slotCheckBoxPasswordClicked
  split
  · rfl
  · exact managerView_setPassword w ""

theorem managerView_lineEdit_password_setText (w : ShareLinkWidget) (text : String) :
    managerView (lineEdit_password_setText w text) = managerView w := by
  unfold lineEdit_password_setText; split <;> rfl

theorem managerView_slotNameEdited (w : ShareLinkWidget) (item : Row) :
    managerView (slotNameEdited w item) = managerView w := by
  unfold slotNameEdited
  split
  · rfl
  · simp only []
    split
    · simp [managerView, List.filter_append, isManagerCall]
    · rfl

theorem managerView_editRowName (w : ShareLinkWidget) (row : Nat) (text : String) :
    managerView (editRowName w row text) = managerView w := by
  unfold editRowName
  split
  · rfl
  · rw [managerView_slotNameEdited]; rfl

theorem getShares_of_no_manager (w : ShareLinkWidget) (h : w._manager = false) :
    getShares w = w := by
  simp [getShares, h]

theorem slotShareNameEntered_of_no_manager (w : ShareLinkWidget) (h : w._manager = false) :
    slotShareNameEntered w = w := by
  simp [slotShareNameEntered, h]

theorem slotPasswordReturnPressed_of_no_manager (w : ShareLinkWidget)
    (h : w._manager = false) : slotPasswordReturnPressed w = w := by
  simp [slotPasswordReturnPressed, h]

theorem managerView_slotPasswordSet (w : ShareLinkWidget) (sender : Nat)
    (h : w._manager = false) : managerView (slotPasswordSet w sender) = managerView w := by
  unfold slotPasswordSet
  split
  · rfl
  · split
    · rfl
    · rw [getShares_of_no_manager]
      · split <;> unfold lineEdit_password_setText <;> split <;> rfl
      · split <;> unfold lineEdit_password_setText <;> split <;> exact h

theorem managerView_slotCreateShareRequiresPassword (w : ShareLinkWidget) (message : String) :
    managerView (slotCreateShareRequiresPassword w message) = managerView w := by
  unfold slotCreateShareRequiresPassword
  simp only []
  rw [managerView_slotCheckBoxPasswordClicked]
  have hclear := managerView_of_selectionFrame _ _ (selectionFrame_clearSelection w)
  rw [← hclear]
  split <;> rfl

/-- A step of a widget without share manager keeps it without one and adds no
request to the manager. -/
theorem managerView_step (w : ShareLinkWidget) (event : Event) (h : w._manager = false) :
    managerView (step w event) = managerView w := by
  cases event with
  | getShares => exact congrArg managerView (getShares_of_no_manager w h)
  | sharesFetched shares =>
    show managerView (slotSharesFetched w shares) = managerView w
    simp [managerView, slotSharesFetched_manager, slotSharesFetched_calls]
  | rowSelected row => exact managerView_of_selectionFrame _ _ (selectionFrame_selectRow w row)
  | selectionCleared => exact managerView_of_selectionFrame _ _ (selectionFrame_clearSelection w)
  | nameTyped text => rfl
  | shareNameEntered => exact congrArg managerView (slotShareNameEntered_of_no_manager w h)
  | passwordTyped text => exact managerView_lineEdit_password_setText w text
  | passwordReturnPressed =>
    exact congrArg managerView (slotPasswordReturnPressed_of_no_manager w h)
  | checkBoxPasswordClicked => exact managerView_slotCheckBoxPasswordClicked _
  | rowNameEdited row text => exact managerView_editRowName w row text
  | passwordSet sender isSet => exact managerView_slotPasswordSet _ sender h
  | passwordSetError code message => rfl
  | permissionsSet sender =>
    show managerView (slotPermissionsSet w sender) = managerView w
    unfold slotPermissionsSet
    split
    · exact managerView_of_selectionFrame _ _ (selectionFrame_slotShareSelectionChanged w)
    · rfl
  | createShareFetched share =>
    show managerView (slotCreateShareFetched w share) = managerView w
    unfold slotCreateShareFetched
    simp only []
    rw [getShares_of_no_manager]
    · rfl
    · exact h
  | createShareRequiresPassword message =>
    exact managerView_slotCreateShareRequiresPassword w message
  | deleteShareFetched => exact congrArg managerView (getShares_of_no_manager w h)
  | serverError code message => rfl

theorem managerView_run (events : List Event) :
    ∀ w : ShareLinkWidget, w._manager = false → managerView (run w events) = managerView w := by
  induction events with
  | nil => intro w _; rfl
  | cons event rest ih =>
    intro w h
    have hstep := managerView_step w event h
    have hm : (step w event)._manager = false := (congrArg Prod.fst hstep).trans h
    show managerView (run (step w event) rest) = managerView w
    rw [ih _ hm, hstep]

theorem construct_manager (bit : Nat) (capabilities : Capabilities) (sharePath : String)
    (localPathIsFile : Bool) (maxSharingPermissions : Nat) :
    (construct bit capabilities sharePath localPathIsFile maxSharingPermissions)._manager =
      (capabilities.sharePublicLink && decide (maxSharingPermissions &&& bit ≠ 0) &&
        decide (sharePath ≠ "")) := by
  obtain ⟨c1, c2, c3, c4⟩ := capabilities
  by_cases hbit : maxSharingPermissions &&& bit = 0 <;> by_cases hpath : sharePath = "" <;>
    cases c1 <;> cases c2 <;> cases c3 <;> cases c4 <;>
    simp [construct, constructHead, setupUi, displayError, hbit, hpath]

theorem construct_calls (bit : Nat) (capabilities : Capabilities) (sharePath : String)
    (localPathIsFile : Bool) (maxSharingPermissions : Nat) :
    (construct bit capabilities sharePath localPathIsFile maxSharingPermissions).calls = [] := by
  obtain ⟨c1, c2, c3, c4⟩ := capabilities
  by_cases hbit : maxSharingPermissions &&& bit = 0 <;> by_cases hpath : sharePath = "" <;>
    cases c1 <;> cases c2 <;> cases c3 <;> cases c4 <;>
    simp [construct, constructHead, setupUi, displayError, hbit, hpath]


/-! ## Claims -/

/-- C1. With no pending override id, `slotSharesFetched` keeps the previously
selected id when a link-type share of the fetched list carries it, and
otherwise selects the first link-type share of the list. -/
theorem C1_reselection_without_override (w : ShareLinkWidget) (shares : List Share)
    (hno : w._newShareOverrideSelectionId = "") :
    ((∃ share ∈ shares,
        share.shareType = ShareType.TypeLink ∧ share.id = w._selectedShareId) →
      (slotSharesFetched w shares)._selectedShareId = w._selectedShareId) ∧
    ((¬ ∃ share ∈ shares,
        share.shareType = ShareType.TypeLink ∧ share.id = w._selectedShareId) →
      ∀ first, (linkEntries shares).head? = some first →
        (slotSharesFetched w shares)._selectedShareId = first.id) := by
  have ht : reselectTarget w = w._selectedShareId := by simp [reselectTarget, hno]
  constructor
  · intro hex
    rw [← ht] at hex
    rw [slotSharesFetched_of_match w shares hex, ht]
  · intro hnex first hfirst
    rw [← ht] at hnex
    exact slotSharesFetched_of_no_match w shares hnex first hfirst

/-- C1, on the lists of the specification: `[A, B, C]` with `B` selected, then
a fetch of `[A, B, D]` keeps `B` and a fetch of `[A, C]` selects `A`. -/
theorem C1_reselection_witness :
    widgetSelectedB._newShareOverrideSelectionId = "" ∧
    widgetSelectedB._selectedShareId = "B" ∧
    (slotSharesFetched widgetSelectedB [shareA, shareB, shareD])._selectedShareId = "B" ∧
    (slotSharesFetched widgetSelectedB [shareA, shareC])._selectedShareId = "A" :=
  ⟨by decide, by decide,
    (C1_reselection_without_override widgetSelectedB [shareA, shareB, shareD] (by decide)).1
      ⟨shareB, by decide, by decide, by decide⟩,
    (C1_reselection_without_override widgetSelectedB [shareA, shareC] (by decide)).2
      (by decide) shareA (by decide)⟩

/-- C2, as stated, fails for a created share whose id is empty: the empty
override id counts as no override, and the previous selection `B` is kept
although the list holds a link share with the created id. -/
theorem C2_empty_id_counterexample :
    (∃ share ∈ [shareA, shareB, shareEmptyId],
      share.shareType = ShareType.TypeLink ∧ share.id = shareEmptyId.id) ∧
    (slotSharesFetched (slotCreateShareFetched widgetSelectedB shareEmptyId)
      [shareA, shareB, shareEmptyId])._selectedShareId ≠ shareEmptyId.id := by
  decide

/-- C2, amended. For every prior state and every created share with a
non-empty id `Z`: after `slotCreateShareFetched` and a following
`slotSharesFetched` whose list holds a link-type share with id `Z`, the
selected share id is `Z`. -/
theorem C2_create_override (w : ShareLinkWidget) (created : Share) (shares : List Share)
    (hid : created.id ≠ "")
    (hin : ∃ share ∈ shares, share.shareType = ShareType.TypeLink ∧ share.id = created.id) :
    (slotSharesFetched (slotCreateShareFetched w created) shares)._selectedShareId =
      created.id := by
  have hov : (slotCreateShareFetched w created)._newShareOverrideSelectionId = created.id := by
    unfold slotCreateShareFetched getShares
    simp only []
    split <;> rfl
  have ht : reselectTarget (slotCreateShareFetched w created) = created.id := by
    simp [reselectTarget, hov, hid]
  rw [← ht] at hin
  rw [slotSharesFetched_of_match _ shares hin, ht]

/-- C2, on the lists of the specification: with `B` selected, creating `Z` and
fetching `[A, Z]` selects `Z`. -/
theorem C2_create_override_witness :
    shareZ.id ≠ "" ∧
    (slotSharesFetched (slotCreateShareFetched widgetSelectedB shareZ)
      [shareA, shareZ])._selectedShareId = "Z" :=
  ⟨by decide,
    C2_create_override widgetSelectedB shareZ [shareA, shareZ] (by decide)
      ⟨shareZ, by decide, by decide, by decide⟩⟩


/-- C3, as stated, fails: the previously selected `B` is still in the fetched
list, yet the pending override `Z` wins. -/
theorem C3_override_first_counterexample :
    widgetSelectedBPendingZ._selectedShareId = "B" ∧
    widgetSelectedBPendingZ._newShareOverrideSelectionId = "Z" ∧
    (∃ share ∈ [shareA, shareB, shareZ],
      share.shareType = ShareType.TypeLink ∧
        share.id = widgetSelectedBPendingZ._selectedShareId) ∧
    (slotSharesFetched widgetSelectedBPendingZ
      [shareA, shareB, shareZ])._selectedShareId = "Z" ∧
    (slotSharesFetched widgetSelectedBPendingZ
      [shareA, shareB, shareZ])._selectedShareId ≠ widgetSelectedBPendingZ._selectedShareId := by
  decide

/-- C3, amended. When a fetch completes the id looked for is the pending
override id if one is set, else the previously selected id, and the override
is cleared. If a link-type share of the list carries the id looked for, that
id is selected; otherwise the first link-type share is selected; and when the
list has no link-type share the deselection is noted explicitly:
`slotShareSelectionChanged` runs on the wiped table and the selected id
becomes empty. -/
theorem C3_fetch_selection_order (w : ShareLinkWidget) (shares : List Share) :
    (reselectTarget w =
      if w._newShareOverrideSelectionId ≠ "" then w._newShareOverrideSelectionId
      else w._selectedShareId) ∧
    (slotSharesFetched w shares)._newShareOverrideSelectionId = "" ∧
    ((∃ share ∈ shares,
        share.shareType = ShareType.TypeLink ∧ share.id = reselectTarget w) →
      (slotSharesFetched w shares)._selectedShareId = reselectTarget w) ∧
    ((¬ ∃ share ∈ shares,
        share.shareType = ShareType.TypeLink ∧ share.id = reselectTarget w) →
      ∀ first, (linkEntries shares).head? = some first →
        (slotSharesFetched w shares)._selectedShareId = first.id) ∧
    (linkEntries shares = [] →
      slotSharesFetched w shares =
        updateCreateButton (slotShareSelectionChanged (afterWipe w)) ∧
      (slotSharesFetched w shares)._selectedShareId = "") := by
  refine ⟨rfl, slotSharesFetched_override w shares, slotSharesFetched_of_match w shares,
    slotSharesFetched_of_no_match w shares, fun hnone => ?_⟩
  have heq := slotSharesFetched_of_no_link w shares hnone
  refine ⟨heq, ?_⟩
  rw [heq, updateCreateButton_selectedShareId, slotShareSelectionChanged_selectedShareId]
  simp [selectedShare, afterWipe_selected]

/-- C3 amended, on concrete lists: with `B` selected and `Z` pending, a fetch
of `[A, B, Z]` selects `Z`, a fetch of `[A, B]` selects the first share `A`
(not the previous `B`), and a fetch without link shares empties the selection. -/
theorem C3_fetch_selection_order_witness :
    reselectTarget widgetSelectedBPendingZ = "Z" ∧
    (slotSharesFetched widgetSelectedBPendingZ [shareA, shareB, shareZ])._selectedShareId = "Z" ∧
    (slotSharesFetched widgetSelectedBPendingZ [shareA, shareB])._selectedShareId = "A" ∧
    linkEntries [userShare] = [] ∧
    (slotSharesFetched widgetSelectedBPendingZ [userShare])._selectedShareId = "" :=
  ⟨by decide,
    (C3_fetch_selection_order widgetSelectedBPendingZ [shareA, shareB, shareZ]).2.2.1
      ⟨shareZ, by decide, by decide, by decide⟩,
    (C3_fetch_selection_order widgetSelectedBPendingZ [shareA, shareB]).2.2.2.1
      (by decide) shareA (by decide),
    by decide,
    ((C3_fetch_selection_order widgetSelectedBPendingZ [userShare]).2.2.2.2 (by decide)).2⟩

/-- C4. `shareName` is the share's name when that is non-empty, else the fixed
label "Public link" when named links are not supported, else the share's
token; the delete confirmation quotes `shareName` of the share, and every table
row built by a fetch shows `shareName` of its share. -/
theorem C4_shareName_rule (w : ShareLinkWidget) (share : Share) (shares : List Share) :
    shareName w share =
      (if share.name ≠ "" then share.name
       else if w._namesSupported = false then "Public link"
       else share.token) ∧
    confirmAndDeleteShare_text w share =
      "<p>Do you really want to delete the public link share <i>" ++ shareName w share ++
        "</i>?</p><p>Note: This action cannot be undone.</p>" ∧
    (slotSharesFetched w shares).linkShares_rows.map Row.share = linkEntries shares ∧
    (slotSharesFetched w shares).linkShares_rows.map Row.text =
      (linkEntries shares).map (shareName (slotSharesFetched w shares)) := by
  refine ⟨?_, rfl, ?_, ?_⟩
  · unfold shareName tr
    cases w._namesSupported <;> simp
  · rw [slotSharesFetched_rows, List.map_map]
    exact List.map_id _
  · rw [slotSharesFetched_rows, List.map_map]
    apply List.map_congr_left
    intro s _
    simp [buildRow, shareName, slotSharesFetched_namesSupported]


/-- C5. The selected share id is empty or the id of a link share shown in the
table: `slotSharesFetched` and `slotShareSelectionChanged` establish this from
any state, the constructor establishes it, `slotCreateShareRequiresPassword`
and every step of the widget preserve it, and a fetch without link-type shares
leaves the selected id empty. -/
theorem C5_selected_id_invariant :
    (∀ (w : ShareLinkWidget) (shares : List Share),
      selectedIdValid (slotSharesFetched w shares)) ∧
    (∀ w : ShareLinkWidget, selectedIdValid (slotShareSelectionChanged w)) ∧
    (∀ (w : ShareLinkWidget) (message : String),
      selectedIdValid w → selectedIdValid (slotCreateShareRequiresPassword w message)) ∧
    (∀ (bit : Nat) (capabilities : Capabilities) (sharePath : String) (isFile : Bool)
      (maxSharingPermissions : Nat),
      selectedIdValid (construct bit capabilities sharePath isFile maxSharingPermissions)) ∧
    (∀ (w : ShareLinkWidget) (event : Event),
      selectedIdValid w → selectedIdValid (step w event)) ∧
    (∀ (w : ShareLinkWidget) (shares : List Share),
      linkEntries shares = [] → (slotSharesFetched w shares)._selectedShareId = "") := by
  refine ⟨selectedIdValid_slotSharesFetched, selectedIdValid_slotShareSelectionChanged,
    selectedIdValid_slotCreateShareRequiresPassword, ?_, selectedIdValid_step, ?_⟩
  · intro bit capabilities sharePath isFile maxSharingPermissions
    exact Or.inl (construct_selectedShareId _ _ _ _ _)
  · intro w shares hnone
    rw [slotSharesFetched_of_no_link w shares hnone, updateCreateButton_selectedShareId,
      slotShareSelectionChanged_selectedShareId]
    simp [selectedShare, afterWipe_selected]

/-- C5 on the widget showing `[A, B, C]` with `B` selected: the invariant
holds, survives a password-required answer, and a fetch of a list without link
shares empties the selected id. -/
theorem C5_selected_id_invariant_witness :
    selectedIdValid widgetSelectedB ∧
    selectedIdValid (slotCreateShareRequiresPassword widgetSelectedB "password needed") ∧
    widgetSelectedB._selectedShareId = "B" ∧
    linkEntries [userShare] = [] ∧
    (slotSharesFetched widgetSelectedB [userShare])._selectedShareId = "" :=
  ⟨Or.inr ⟨buildRow widgetSelectedB shareB, by decide, by decide⟩,
    C5_selected_id_invariant.2.2.1 widgetSelectedB "password needed"
      (Or.inr ⟨buildRow widgetSelectedB shareB, by decide, by decide⟩),
    by decide, by decide,
    C5_selected_id_invariant.2.2.2.2.2 widgetSelectedB [userShare] (by decide)⟩

/-- C6. When the public-link capability is off or `maxSharingPermissions` lacks
the share bit, the constructor creates no share manager and requests nothing;
a widget without manager does nothing in `getShares`, `slotShareNameEntered`
and `slotPasswordReturnPressed`, and after any sequence of events it still has
no manager and has sent no `fetchShares` or `createLinkShare`.  When the
capability is on, the bit is present and the share path is non-empty, the
constructor creates the manager. -/
theorem C6_sharing_disabled_is_terminal (bit : Nat) (capabilities : Capabilities)
    (sharePath : String) (isFile : Bool) (maxSharingPermissions : Nat) :
    ((capabilities.sharePublicLink = false ∨ maxSharingPermissions &&& bit = 0) →
      (construct bit capabilities sharePath isFile maxSharingPermissions)._manager = false ∧
      (construct bit capabilities sharePath isFile maxSharingPermissions).calls = [] ∧
      ∀ events : List Event,
        (run (construct bit capabilities sharePath isFile maxSharingPermissions)
          events)._manager = false ∧
        ∀ call ∈ (run (construct bit capabilities sharePath isFile maxSharingPermissions)
          events).calls, isManagerCall call = false) ∧
    (∀ w : ShareLinkWidget, w._manager = false →
      getShares w = w ∧ slotShareNameEntered w = w ∧ slotPasswordReturnPressed w = w) ∧
    ((capabilities.sharePublicLink = true ∧ maxSharingPermissions &&& bit ≠ 0 ∧
        sharePath ≠ "") →
      (construct bit capabilities sharePath isFile maxSharingPermissions)._manager = true) := by
  have hman := construct_manager bit capabilities sharePath isFile maxSharingPermissions
  have hcalls := construct_calls bit capabilities sharePath isFile maxSharingPermissions
  refine ⟨fun hoff => ?_, fun w h => ⟨getShares_of_no_manager w h,
    slotShareNameEntered_of_no_manager w h, slotPasswordReturnPressed_of_no_manager w h⟩,
    fun hon => ?_⟩
  · have hfalse :
        (construct bit capabilities sharePath isFile maxSharingPermissions)._manager = false := by
      rw [hman]
      rcases hoff with h | h <;> simp [h]
    refine ⟨hfalse, hcalls, fun events => ?_⟩
    have hview := managerView_run events _ hfalse
    have h1 : (run (construct bit capabilities sharePath isFile maxSharingPermissions)
        events)._manager = false := (congrArg Prod.fst hview).trans hfalse
    have h2 : (run (construct bit capabilities sharePath isFile maxSharingPermissions)
        events).calls.filter isManagerCall = [] := by
      have := congrArg Prod.snd hview
      simpa [managerView, hcalls] using this
    refine ⟨h1, fun call hcall => ?_⟩
    cases hc : isManagerCall call with
    | false => rfl
    | true =>
      have hmem : call ∈ (run (construct bit capabilities sharePath isFile maxSharingPermissions)
          events).calls.filter isManagerCall := List.mem_filter.mpr ⟨hcall, hc⟩
      rw [h2] at hmem
      cases hmem
  · rw [hman]
    simp [hon.1, hon.2.1, hon.2.2]

/-- C6 on a server without public links: no manager, and a create attempt
followed by a password submission requests nothing; on the example server the
manager exists. -/
theorem C6_sharing_disabled_witness :
    disabledWidget._manager = false ∧
    (run disabledWidget [Event.getShares, Event.shareNameEntered, Event.passwordTyped "p",
      Event.passwordReturnPressed]).calls = [] ∧
    exampleWidget._manager = true :=
  ⟨((C6_sharing_disabled_is_terminal 16 _ "/Photos" false 31).1 (Or.inl rfl)).1,
    by decide,
    (C6_sharing_disabled_is_terminal 16 exampleCapabilities "/Photos" false 31).2.2
      ⟨rfl, by decide, by decide⟩⟩


/-! ## Creating with a required password, and setting passwords -/

/-- After `slotCreateShareRequiresPassword` nothing is selected, the password
is required, and the members used by a later create request are as before. -/
theorem slotCreateShareRequiresPassword_view (w : ShareLinkWidget) (message : String) :
    (slotCreateShareRequiresPassword w message).linkShares_selected = none ∧
    (slotCreateShareRequiresPassword w message)._passwordRequired = true ∧
    (slotCreateShareRequiresPassword w message)._manager = w._manager ∧
    (slotCreateShareRequiresPassword w message)._sharePath = w._sharePath ∧
    (slotCreateShareRequiresPassword w message).nameLineEdit_text = w.nameLineEdit_text ∧
    (slotCreateShareRequiresPassword w message).calls = w.calls := by
  have hsel : (clearSelection w).linkShares_selected = none := by
    unfold clearSelection
    split
    · assumption
    · simp
  have hframe := selectionFrame_clearSelection w
  have h1 : (clearSelection w)._manager = w._manager := congrArg (fun f => f.1) hframe
  have h2 : (clearSelection w)._sharePath = w._sharePath := congrArg (fun f => f.2.1) hframe
  have h3 : (clearSelection w).nameLineEdit_text = w.nameLineEdit_text :=
    congrArg (fun f => f.2.2.2.2.2.1) hframe
  have h4 : (clearSelection w).calls = w.calls := congrArg (fun f => f.2.2.2.2.2.2) hframe
  unfold slotCreateShareRequiresPassword slotCheckBoxPasswordClicked
  simp only []
  split <;> simp [hsel, h1, h2, h3, h4]

theorem lineEdit_password_setText_view (w : ShareLinkWidget) (text : String) :
    (lineEdit_password_setText w text).lineEdit_password_text = text ∧
    (lineEdit_password_setText w text).linkShares_selected = w.linkShares_selected ∧
    (lineEdit_password_setText w text).linkShares_rows = w.linkShares_rows ∧
    (lineEdit_password_setText w text)._manager = w._manager ∧
    (lineEdit_password_setText w text)._sharePath = w._sharePath ∧
    (lineEdit_password_setText w text).nameLineEdit_text = w.nameLineEdit_text ∧
    (lineEdit_password_setText w text).calls = w.calls := by
  unfold lineEdit_password_setText slotPasswordChanged
  split
  · rename_i h
    exact ⟨h, rfl, rfl, rfl, rfl, rfl, rfl⟩
  · exact ⟨rfl, rfl, rfl, rfl, rfl, rfl, rfl⟩

/-- C7. A create attempt with the name `n` of the name line edit sends
`createLinkShare(sharePath, n, "")`; after the answer
`slotCreateShareRequiresPassword(message)` no share is selected and the
password-required flag is set; when the user then types a non-empty password
`p`, `slotPasswordReturnPressed` sends exactly `createLinkShare(sharePath, n, p)`
and nothing else (no `setPassword` to a share), and with an empty password it
changes nothing and sends nothing. -/
theorem C7_password_required_create (w : ShareLinkWidget) (message password : String)
    (hmanager : w._manager = true) :
    (slotShareNameEntered w).calls =
      w.calls ++ [Call.createLinkShare w._sharePath w.nameLineEdit_text ""] ∧
    selectedShare (slotCreateShareRequiresPassword (slotShareNameEntered w) message) = none ∧
    (slotCreateShareRequiresPassword (slotShareNameEntered w) message)._passwordRequired
      = true ∧
    (password ≠ "" →
      (slotPasswordReturnPressed (lineEdit_password_setText
          (slotCreateShareRequiresPassword (slotShareNameEntered w) message) password)).calls =
        (slotCreateShareRequiresPassword (slotShareNameEntered w) message).calls ++
          [Call.createLinkShare w._sharePath w.nameLineEdit_text password]) ∧
    (password = "" →
      slotPasswordReturnPressed (lineEdit_password_setText
          (slotCreateShareRequiresPassword (slotShareNameEntered w) message) password) =
        lineEdit_password_setText
          (slotCreateShareRequiresPassword (slotShareNameEntered w) message) password) := by
  have hasked : slotShareNameEntered w = { w with
      pi_create := true
      calls := w.calls ++ [Call.createLinkShare w._sharePath w.nameLineEdit_text ""] } := by
    simp [slotShareNameEntered, hmanager]
  obtain ⟨hsel, hreq, hman, hpath, hname, hcalls⟩ :=
    slotCreateShareRequiresPassword_view (slotShareNameEntered w) message
  obtain ⟨ttext, tsel, _, tman, tpath, tname, tcalls⟩ :=
    lineEdit_password_setText_view
      (slotCreateShareRequiresPassword (slotShareNameEntered w) message) password
  have hnosel : selectedShare (lineEdit_password_setText
      (slotCreateShareRequiresPassword (slotShareNameEntered w) message) password) = none := by
    simp [selectedShare, tsel, hsel]
  have hman2 : (lineEdit_password_setText
      (slotCreateShareRequiresPassword (slotShareNameEntered w) message) password)._manager
      = true := by
    rw [tman, hman, hasked]
    exact hmanager
  refine ⟨by rw [hasked], by simp [selectedShare, hsel], hreq, fun hp => ?_, fun hp => ?_⟩
  · unfold slotPasswordReturnPressed
    simp only [hman2, hnosel, ttext, hp, tpath, tname, tcalls, hpath, hname]
    simp [hasked]
  · subst hp
    unfold slotPasswordReturnPressed
    simp [hman2, hnosel, ttext]

/-- C7 on the example widget with `B` selected: the name "Public link" is sent
again together with the password, and nothing is sent for an empty password. -/
theorem C7_password_required_create_witness :
    widgetSelectedB._manager = true ∧
    (slotPasswordReturnPressed (lineEdit_password_setText
        (slotCreateShareRequiresPassword (slotShareNameEntered widgetSelectedB) "needs password")
        "secret")).calls =
      (slotCreateShareRequiresPassword (slotShareNameEntered widgetSelectedB)
        "needs password").calls ++
        [Call.createLinkShare "/Photos" "Public link" "secret"] :=
  ⟨by decide,
    (C7_password_required_create widgetSelectedB "needs password" "secret" (by decide)).2.2.2.1
      (by decide)⟩

/-- C9, evaluated on a server that enforces passwords. First trace: with the
protected share `A` selected, pressing Return in the enabled, empty password
line edit sends `setPassword` with an empty password. Second trace: after a
successful password change `slotPasswordSet` has enabled the password check box
although the password is required; clicking it unchecks it and sends
`setPassword` with an empty password. -/
theorem C9_empty_password_sent_when_enforced :
    enforcingWidget._passwordRequired = true ∧
    enforcingWidget.checkBox_password_enabled = false ∧
    enforcingWidget.shareProperties_enabled = true ∧
    enforcingWidget.lineEdit_password_enabled = true ∧
    enforcingWidget.lineEdit_password_text = "" ∧
    (slotPasswordReturnPressed enforcingWidget).calls = [Call.setPassword 1 "A" ""] ∧
    enforcingWidgetPasswordSet._passwordRequired = true ∧
    enforcingWidgetPasswordSet.shareProperties_enabled = true ∧
    enforcingWidgetPasswordSet.checkBox_password_enabled = true ∧
    enforcingWidgetPasswordSet.checkBox_password_checked = true ∧
    (clickCheckBoxPassword enforcingWidgetPasswordSet).calls =
      [Call.setPassword 1 "A" "secret", Call.fetchShares "/Photos",
        Call.setPassword 1 "A" ""] := by
  decide

/-- C10, as stated, fails: share `A` is in the list but `B` is selected, and
`slotPasswordSet` with `A` as sender returns without requesting a fetch. -/
theorem C10_other_sender_counterexample :
    buildRow widgetSelectedB shareA ∈ widgetSelectedB.linkShares_rows ∧
    selectedShare widgetSelectedB = some shareB ∧
    widgetSelectedB._manager = true ∧
    slotPasswordSet widgetSelectedB shareA.ptr = widgetSelectedB ∧
    (slotPasswordSet widgetSelectedB shareA.ptr).calls = [] := by
  decide

/-- C10, amended. When the share reporting that its password was set is the
selected one and a share manager exists, `slotPasswordSet` requests
`fetchShares(sharePath)`; when the sender is any other share, or nothing is
selected, `slotPasswordSet` changes nothing and requests nothing. -/
theorem C10_passwordSet_refetch (w : ShareLinkWidget) (sender : Nat) :
    ((selectedShare w).map Share.ptr = some sender → w._manager = true →
      (slotPasswordSet w sender).calls = w.calls ++ [Call.fetchShares w._sharePath]) ∧
    ((selectedShare w).map Share.ptr ≠ some sender → slotPasswordSet w sender = w) := by
  constructor
  · intro hsel hmanager
    cases hshare : selectedShare w with
    | none => rw [hshare] at hsel; cases hsel
    | some share =>
      rw [hshare] at hsel
      have hptr : sender = share.ptr := by simpa using hsel.symm
      unfold slotPasswordSet
      simp only [hshare, hptr, ne_eq, not_true_eq_false, if_false]
      unfold getShares lineEdit_password_setText slotPasswordChanged
      split <;> split <;> simp [hmanager]
  · intro hsel
    cases hshare : selectedShare w with
    | none => simp [slotPasswordSet, hshare]
    | some share =>
      rw [hshare] at hsel
      have hptr : sender ≠ share.ptr := by
        intro h
        exact hsel (by simp [h])
      simp [slotPasswordSet, hshare, hptr]

/-- C10 amended, on the widget showing `[A, B, C]` with `B` selected: a report
from `B` requests the fetch, a report from `A` changes nothing. -/
theorem C10_passwordSet_refetch_witness :
    (selectedShare widgetSelectedB).map Share.ptr = some 2 ∧
    widgetSelectedB._manager = true ∧
    (slotPasswordSet widgetSelectedB 2).calls = [Call.fetchShares "/Photos"] ∧
    slotPasswordSet widgetSelectedB 1 = widgetSelectedB :=
  ⟨by decide, by decide,
    (C10_passwordSet_refetch widgetSelectedB 2).1 (by decide) (by decide),
    (C10_passwordSet_refetch widgetSelectedB 1).2 (by decide)⟩


/-! ## Repeated fetches, server errors and the rows of the table -/

/-- After a fetch of a list with a link-type entry, the selected id is the id
of a link-type entry of that list. -/
theorem slotSharesFetched_selected_in_list (w : ShareLinkWidget) (shares : List Share)
    (first : Share) (hfirst : (linkEntries shares).head? = some first) :
    ∃ share ∈ shares, share.shareType = ShareType.TypeLink ∧
      share.id = (slotSharesFetched w shares)._selectedShareId := by
  by_cases hex : ∃ share ∈ shares,
      share.shareType = ShareType.TypeLink ∧ share.id = reselectTarget w
  · rw [slotSharesFetched_of_match w shares hex]
    exact hex
  · rw [slotSharesFetched_of_no_match w shares hex first hfirst]
    have hmem : first ∈ linkEntries shares := by
      cases hl : linkEntries shares with
      | nil => rw [hl] at hfirst; cases hfirst
      | cons a rest =>
        rw [hl] at hfirst
        simp only [List.head?_cons, Option.some.injEq] at hfirst
        rw [hfirst]
        exact List.mem_cons_self _ _
    unfold linkEntries at hmem
    obtain ⟨h1, h2⟩ := List.mem_filter.mp hmem
    exact ⟨first, h1, by simpa using h2, rfl⟩

/-- C11. Applying `slotSharesFetched` twice with the same list gives the same
share rows and the same selected share id as applying it once, and the pending
override id is empty after the first and after the second application. -/
theorem C11_fetch_twice_same_rows_and_selection (w : ShareLinkWidget) (shares : List Share) :
    (slotSharesFetched (slotSharesFetched w shares) shares).linkShares_rows =
      (slotSharesFetched w shares).linkShares_rows ∧
    (slotSharesFetched (slotSharesFetched w shares) shares)._selectedShareId =
      (slotSharesFetched w shares)._selectedShareId ∧
    (slotSharesFetched (slotSharesFetched w shares) shares)._newShareOverrideSelectionId = "" ∧
    (slotSharesFetched w shares)._newShareOverrideSelectionId = "" := by
  have hov := slotSharesFetched_override w shares
  refine ⟨?_, ?_, slotSharesFetched_override _ shares, hov⟩
  · rw [slotSharesFetched_rows, slotSharesFetched_rows]
    apply List.map_congr_left
    intro share _
    exact buildRow_congr _ _ (slotSharesFetched_namesSupported w shares) share
  · have ht : reselectTarget (slotSharesFetched w shares) =
        (slotSharesFetched w shares)._selectedShareId := by
      simp [reselectTarget, hov]
    cases hl : linkEntries shares with
    | nil =>
      have hnone : ∀ v : ShareLinkWidget, (slotSharesFetched v shares)._selectedShareId = "" := by
        intro v
        rw [slotSharesFetched_of_no_link v shares hl, updateCreateButton_selectedShareId,
          slotShareSelectionChanged_selectedShareId]
        simp [selectedShare, afterWipe_selected]
      rw [hnone, hnone]
    | cons first rest =>
      have hex := slotSharesFetched_selected_in_list w shares first (by rw [hl]; rfl)
      rw [← ht] at hex
      rw [slotSharesFetched_of_match _ shares hex, ht]

/-- The table selection itself is outside what a repeated fetch keeps: when two
link shares carry the same id, the first fetch selects the first row by
default and the second fetch ends on the last row with that id. -/
theorem fetch_twice_selected_row_may_move :
    (slotSharesFetched exampleWidget sharesWithRepeatedId).linkShares_selected = some 0 ∧
    (slotSharesFetched (slotSharesFetched exampleWidget sharesWithRepeatedId)
      sharesWithRepeatedId).linkShares_selected = some 1 ∧
    (slotSharesFetched (slotSharesFetched exampleWidget sharesWithRepeatedId)
      sharesWithRepeatedId)._selectedShareId = "A" := by
  decide

/-- C12, as stated, fails: with a create request in flight the server error
also stops the create indicator, so the result is not the widget with only the
error display changed. -/
theorem C12_indicator_counterexample :
    widgetCreating.pi_create = true ∧
    (slotServerError widgetCreating 500 "Server error").pi_create = false ∧
    slotServerError widgetCreating 500 "Server error" ≠
      displayError widgetCreating "Server error" := by
  decide

/-- C12, amended. `slotServerError` leaves the share rows, the table selection,
the selected share id and the pending override id as they were; it shows
`message` in the error label, replacing any previous text, and it stops the
progress indicators; nothing else changes. -/
theorem C12_server_error_frame (w : ShareLinkWidget) (code : Int) (message : String) :
    (slotServerError w code message).linkShares_rows = w.linkShares_rows ∧
    (slotServerError w code message).linkShares_selected = w.linkShares_selected ∧
    (slotServerError w code message)._selectedShareId = w._selectedShareId ∧
    (slotServerError w code message)._newShareOverrideSelectionId =
      w._newShareOverrideSelectionId ∧
    (slotServerError w code message).errorLabel_text = message ∧
    (slotServerError w code message).errorLabel_visible = true ∧
    slotServerError w code message =
      { w with
        pi_create := false
        pi_password := false
        errorLabel_text := message
        errorLabel_visible := true } :=
  ⟨rfl, rfl, rfl, rfl, rfl, rfl, rfl⟩

/-- C13. After `slotSharesFetched` the table holds exactly one row per
link-type entry of the fetched list, in list order, whatever rows it held
before: the shares of the rows are the list filtered by the link type, each row
is the one built for its share, and the row count is the number of link-type
entries. -/
theorem C13_rows_are_link_entries (w : ShareLinkWidget) (shares : List Share) :
    (slotSharesFetched w shares).linkShares_rows.map Row.share =
      shares.filter (fun share => decide (share.shareType = ShareType.TypeLink)) ∧
    (slotSharesFetched w shares).linkShares_rows =
      (shares.filter (fun share => decide (share.shareType = ShareType.TypeLink))).map
        (buildRow w) ∧
    (slotSharesFetched w shares).linkShares_rows.length =
      shares.countP (fun share => decide (share.shareType = ShareType.TypeLink)) ∧
    List.Sublist ((slotSharesFetched w shares).linkShares_rows.map Row.share) shares := by
  have hrows := slotSharesFetched_rows w shares
  have hshares : (slotSharesFetched w shares).linkShares_rows.map Row.share =
      shares.filter (fun share => decide (share.shareType = ShareType.TypeLink)) := by
    rw [hrows, List.map_map]
    exact List.map_id _
  refine ⟨hshares, hrows, ?_, ?_⟩
  · rw [hrows, List.length_map, List.countP_eq_length_filter]
    rfl
  · rw [hshares]
    exact List.filter_sublist _

end OCC
